import Mathlib

/-!
Verification of the trade-journal analytics core.

Shallow embedding of the analyzers in `src/analyzers/` over an explicit
trade model (`src/models/trade.py`).  Conventions:

* Python `datetime` values are modelled as natural numbers (seconds since
  an arbitrary epoch); `datetime.time()` is seconds-of-day, `t % 86400`.
* Exact-decimal money (`Decimal`) and Python `float` values are both
  modelled as rationals (`ℚ`); every comparison and arithmetic step the
  claims exercise is exact at the inputs involved.
* `float('inf')` sentinels are modelled with the two-constructor type
  `PyFloat` (`val q` for a finite float, `inf` for `float('inf')`).
* Fallible / partially-initialized attributes are modelled with `Option`:
  `none` corresponds to an `AttributeError` on access.
-/

namespace TradeJournal

/-- Python datetime, as seconds since an arbitrary epoch. -/
abbrev Time := Nat

/-- Seconds-of-day of a timestamp: Python `dt.time()` at seconds resolution. -/
def timeOfDay (t : Time) : Nat := t % 86400

/-- Hour-of-day of a timestamp: Python `dt.hour`. -/
def hourOf (t : Time) : Nat := timeOfDay t / 3600

/-- A Python float that may be the `float('inf')` sentinel. -/
inductive PyFloat where
  | val (q : ℚ)
  | inf
deriving DecidableEq

/-- The trade record (`src/models/trade.py`), restricted to the fields the
analyzers under verification read: `profit`, `open_time`, `close_time`.
`is_closed` is `close_time is not None`. -/
structure Trade where
  ticket : Nat
  profit : ℚ
  openTime : Time
  closeTime : Option Time
deriving DecidableEq

/-- `Trade.is_closed`. -/
def Trade.isClosed (t : Trade) : Bool := t.closeTime.isSome

/-- The close time of a closed trade (only applied to closed trades;
`0` is a formal default for the unreachable open case). -/
def closeKey (t : Trade) : Time := t.closeTime.getD 0

/-- `[t for t in trades if t.is_closed]`. -/
def closedTrades (trades : List Trade) : List Trade :=
  trades.filter (·.isClosed)

/-- Comparison used by every `sorted(..., key=lambda t: t.close_time)`. -/
def closeLE (a b : Trade) : Prop := closeKey a ≤ closeKey b

instance : DecidableRel closeLE := fun a b =>
  inferInstanceAs (Decidable (closeKey a ≤ closeKey b))

instance : IsTotal Trade closeLE := ⟨fun a b => Nat.le_total (closeKey a) (closeKey b)⟩

instance : IsTrans Trade closeLE := ⟨fun _ _ _ => Nat.le_trans⟩

/-- `sorted(trades, key=lambda t: t.close_time)` (tie order is unspecified in
the spec; a stable-enough insertion sort models it). -/
def sortByCloseTime (l : List Trade) : List Trade :=
  l.insertionSort closeLE

/-! ## BasicStats (`src/analyzers/basic_stats.py`) -/

/-- `[t for t in closed if t.profit > 0]`. -/
def winningTrades (trades : List Trade) : List Trade :=
  (closedTrades trades).filter (fun t => 0 < t.profit)

/-- `[t for t in closed if t.profit < 0]`. -/
def losingTrades (trades : List Trade) : List Trade :=
  (closedTrades trades).filter (fun t => t.profit < 0)

/-- `win_rate = win_trades / closed_trades if closed_trades > 0 else 0.0`. -/
def winRate (trades : List Trade) : ℚ :=
  if 0 < (closedTrades trades).length then
    ((winningTrades trades).length : ℚ) / ((closedTrades trades).length : ℚ)
  else 0

/-- `total_gross_profit = sum(t.profit for t in winning_trades)`. -/
def grossProfit (trades : List Trade) : ℚ :=
  ((winningTrades trades).map (·.profit)).sum

/-- `total_gross_loss = abs(sum(t.profit for t in losing_trades))`. -/
def grossLoss (trades : List Trade) : ℚ :=
  |((losingTrades trades).map (·.profit)).sum|

/-- `profit_factor = gp/gl if gl != 0 else float('inf')` (basic_stats.py:91). -/
def basicProfitFactor (trades : List Trade) : PyFloat :=
  if grossLoss trades ≠ 0 then .val (grossProfit trades / grossLoss trades)
  else .inf

/-- Running state of `_calculate_consecutive`'s walk. -/
structure StreakState where
  curWins : Nat
  curLosses : Nat
  maxWins : Nat
  maxLosses : Nat
deriving DecidableEq

/-- One iteration of the `_calculate_consecutive` loop body
(basic_stats.py:197-209). -/
def streakStep (s : StreakState) (t : Trade) : StreakState :=
  if 0 < t.profit then
    ⟨s.curWins + 1, 0, max s.maxWins (s.curWins + 1), s.maxLosses⟩
  else if t.profit < 0 then
    ⟨0, s.curLosses + 1, s.maxWins, max s.maxLosses (s.curLosses + 1)⟩
  else
    ⟨0, 0, s.maxWins, s.maxLosses⟩

/-- The whole walk, from all-zero counters. -/
def streakWalk (l : List Trade) : StreakState :=
  l.foldl streakStep ⟨0, 0, 0, 0⟩

/-- The sequence of states after each step of the walk (the "running
counters" along the chronological order). -/
def walkStates (s : StreakState) : List Trade → List StreakState
  | [] => []
  | t :: ts => streakStep s t :: walkStates (streakStep s t) ts

/-- `BasicStats._calculate_consecutive` (basic_stats.py:184-211). -/
def calculateConsecutive (trades : List Trade) : Nat × Nat :=
  if closedTrades trades = [] then (0, 0)
  else
    let w := streakWalk (sortByCloseTime (closedTrades trades))
    (w.maxWins, w.maxLosses)

/-! ## PerformanceScorer (`src/analyzers/performance_scorer.py`) -/

/-- `PerformanceScorer._calculate_win_rate_score` (performance_scorer.py:99-115). -/
def calculateWinRateScore (wr : ℚ) : ℚ :=
  if 0.6 ≤ wr then 90 + (wr - 0.6) * 100
  else if 0.5 ≤ wr then 70 + ((wr - 0.5) / 0.1) * 20
  else if 0.4 ≤ wr then 50 + ((wr - 0.4) / 0.1) * 20
  else 30 + (wr / 0.4) * 20

/-- `PerformanceScorer._calculate_profit_factor_score`
(performance_scorer.py:150-166).  The `.inf` input case follows IEEE float
semantics: `inf >= 2.0` holds and `90 + ((inf - 2)/2)*10` is again `inf`. -/
def calculateProfitFactorScore (pf : PyFloat) : PyFloat :=
  match pf with
  | .inf => .inf
  | .val q =>
      .val (if 2 ≤ q then 90 + ((q - 2) / 2) * 10
            else if 1.5 ≤ q then 70 + ((q - 1.5) / 0.5) * 20
            else if 1.2 ≤ q then 50 + ((q - 1.2) / 0.3) * 20
            else max 10 (q * 30))

/-- `max_possible_profit` of `grade_individual_trade`
(performance_scorer.py:248): the largest `abs(profit)` among trades with
positive profit, `100` when there is none. -/
def maxPossibleProfit (trades : List Trade) : ℚ :=
  match (trades.filter (fun t => 0 < t.profit)).map (fun t => |t.profit|) with
  | [] => 100
  | x :: xs => xs.foldl max x

/-- `max_possible_loss` of `grade_individual_trade`
(performance_scorer.py:249).  Note: the source computes
`min(abs(t.profit) for t in self.trades if t.profit < 0)` — the SMALLEST
losing magnitude, despite the variable's name. -/
def maxPossibleLoss (trades : List Trade) : ℚ :=
  match (trades.filter (fun t => t.profit < 0)).map (fun t => |t.profit|) with
  | [] => 100
  | x :: xs => xs.foldl min x

/-- The profitability component (`breakdown["profitability"]`) of
`PerformanceScorer.grade_individual_trade` (performance_scorer.py:251-260). -/
def profitScore (trades : List Trade) (t : Trade) : ℚ :=
  if 0 < t.profit then
    min 100 (t.profit / maxPossibleProfit trades * 70 + 30)
  else if t.profit < 0 then
    max 0 (50 - |t.profit| / maxPossibleLoss trades * 50)
  else 50

/-! ## DrawdownAnalyzer (`src/analyzers/drawdown.py`) -/

/-- `DrawdownPeriod` (drawdown.py:15-25).  `duration` is seconds (a
`timedelta`); `endDate`/`recoveryDate` are `None` for an ongoing drawdown. -/
structure DrawdownPeriod where
  startDate : Time
  endDate : Option Time
  peakEquity : ℚ
  troughEquity : ℚ
  maxDepth : ℚ
  maxDepthPct : ℚ
  duration : Nat
  recoveryDate : Option Time
deriving DecidableEq

/-- The loop state of `_identify_drawdown_periods` (drawdown.py:81-88),
with the accumulated period list. -/
structure DDState where
  peakBalance : ℚ
  peakTime : Time
  ddStart : Option Time
  trough : ℚ
  inDD : Bool
  periods : List DrawdownPeriod
deriving DecidableEq

/-- The per-trade points of the equity curve (drawdown.py:70-72):
one point per trade at the running cumulative balance. -/
def curvePoints : List Trade → ℚ → List (Time × ℚ)
  | [], _ => []
  | t :: ts, bal => (closeKey t, bal + t.profit) :: curvePoints ts (bal + t.profit)

/-- `_calculate_equity_curve` (drawdown.py:60-74): a synthetic start point
one minute before the first close at the initial balance, then the
per-trade points. -/
def equityCurve (trades : List Trade) (init : ℚ) : List (Time × ℚ) :=
  match sortByCloseTime (closedTrades trades) with
  | [] => []
  | t :: ts => (closeKey t - 60, init) :: curvePoints (t :: ts) init

/-- `max_depth_pct` of a period (drawdown.py:100): percentage from peak,
`0.0` when the peak is not positive. -/
def depthPct (peak trough : ℚ) : ℚ :=
  if 0 < peak then (peak - trough) / peak * 100 else 0

/-- One iteration of the `_identify_drawdown_periods` loop (drawdown.py:90-120).
The recovery branch appends a closed period only under the source's
`if in_drawdown and current_drawdown_start:` guard (a `datetime` is always
truthy, so the guard is `in_drawdown ∧ ddStart ≠ None`). -/
def ddStep (st : DDState) (pt : Time × ℚ) : DDState :=
  if st.peakBalance < pt.2 then
    match st.inDD, st.ddStart with
    | true, some s =>
        ⟨pt.2, pt.1, st.ddStart, pt.2, false,
          st.periods ++ [⟨s, some pt.1, st.peakBalance, st.trough,
            st.peakBalance - st.trough, depthPct st.peakBalance st.trough,
            pt.1 - s, some pt.1⟩]⟩
    | a, _ => ⟨pt.2, pt.1, st.ddStart, pt.2, a, st.periods⟩
  else if pt.2 < st.peakBalance then
    if st.inDD = false then
      ⟨st.peakBalance, st.peakTime, some st.peakTime, pt.2, true, st.periods⟩
    else if pt.2 < st.trough then
      { st with trough := pt.2 }
    else st
  else st

/-- The trailing `if in_drawdown:` block of `_identify_drawdown_periods`
(drawdown.py:122-136): emit the still-open drawdown with no end/recovery
date, using the last curve point's time for the duration.  (`ddStart` is
always set when `inDD` holds; the fall-through arm mirrors that the source
would not reach it.) -/
def finalizePeriods (st : DDState) (lastTime : Time) : List DrawdownPeriod :=
  match st.inDD, st.ddStart with
  | true, some s =>
      st.periods ++ [⟨s, none, st.peakBalance, st.trough,
        st.peakBalance - st.trough, depthPct st.peakBalance st.trough,
        lastTime - s, none⟩]
  | _, _ => st.periods

/-- `_identify_drawdown_periods` (drawdown.py:76-138). -/
def identifyDrawdownPeriods (trades : List Trade) (init : ℚ) : List DrawdownPeriod :=
  match equityCurve trades init with
  | [] => []
  | c :: cs =>
      finalizePeriods ((c :: cs).foldl ddStep ⟨init, c.1, none, init, false, []⟩)
        ((c :: cs).getLastD c).1

/-- The fields of `DrawdownResult` the claims exercise (drawdown.py:28-40);
the aggregate mean/longest/recovery fields are omitted as no claim
mentions them. -/
structure DrawdownResult where
  currentDrawdown : ℚ
  currentDrawdownPct : ℚ
  drawdownPeriods : List DrawdownPeriod
  isInDrawdown : Bool
deriving DecidableEq

/-- `DrawdownAnalyzer.get_analysis` (drawdown.py:140-192), restricted to the
fields above.  The empty-curve arm is the source's `if not self.trades:`
early return (the curve is empty exactly when there are no closed trades). -/
def getAnalysis (trades : List Trade) (init : ℚ) : DrawdownResult :=
  match equityCurve trades init with
  | [] => ⟨0, 0, [], false⟩
  | c :: cs =>
      let currentBalance := ((c :: cs).getLastD c).2
      let peakBalance := (cs.map Prod.snd).foldl max c.2
      let currentDD := peakBalance - currentBalance
      ⟨currentDD,
        (if 0 < peakBalance then currentDD / peakBalance * 100 else 0),
        identifyDrawdownPeriods trades init,
        decide (0 < currentDD)⟩

/-! ## TimeAnalysis (`src/analyzers/time_analysis.py`) -/

/-- `TimeAnalysis.SESSIONS` (time_analysis.py:59-64), windows in
seconds-of-day UTC. -/
def SESSIONS : List (String × Nat × Nat) :=
  [("Asian", 0, 28800),
   ("London", 28800, 57600),
   ("New_York", 46800, 75600),
   ("London_NY_Overlap", 46800, 57600)]

/-- `TimeAnalysis.PERIODS` (time_analysis.py:66-73).  Note the evening
window ends at `time(23, 59)` = 86340 seconds, not at midnight. -/
def PERIODS : List (String × Nat × Nat) :=
  [("pre_market", 0, 28800),
   ("market_open", 28800, 43200),
   ("midday", 43200, 57600),
   ("afternoon", 57600, 72000),
   ("evening", 72000, 86340)]

/-- `_time_in_range` (time_analysis.py:181-186): membership in `[start, end)`
with midnight wraparound when `start > end`. -/
def timeInRange (t s e : Nat) : Bool :=
  if s ≤ e then s ≤ t && t < e else s ≤ t || t < e

/-- Window membership test of `_get_period` (time_analysis.py:176):
`start_time <= close_hour < end_time` (no wraparound form here). -/
def inWindow (tod : Nat) (w : String × Nat × Nat) : Bool :=
  w.2.1 ≤ tod && tod < w.2.2

/-- `_get_period` (time_analysis.py:171-179): the first period window
containing the time of day, else `None`. -/
def getPeriod (tod : Nat) : Option String :=
  (PERIODS.find? (inWindow tod)).map (·.1)

/-- `_get_sessions` (time_analysis.py:188-195): all sessions whose window
contains the time of day, in `SESSIONS` order. -/
def getSessions (tod : Nat) : List String :=
  (SESSIONS.filter (fun w => timeInRange tod w.2.1 w.2.2)).map (·.1)

/-- One `_analyze_trade` session update (time_analysis.py:139-145): append
the trade to the `trades` list of every bucket named in `names`. -/
def bucketAdd (f : String → List Trade) (names : List String) (t : Trade) :
    String → List Trade :=
  fun s => if s ∈ names then f s ++ [t] else f s

/-- The session buckets' `trades` lists after `_analyze_all`: each closed
trade is appended to every session bucket returned by `_get_sessions`. -/
def sessionBuckets (trades : List Trade) : String → List Trade :=
  (closedTrades trades).foldl
    (fun f t => bucketAdd f (getSessions (timeOfDay (closeKey t))) t)
    (fun _ => [])

/-- The hour buckets' `trades` lists after `_analyze_all`: each closed trade
is appended to the bucket of its close hour. -/
def hourBuckets (trades : List Trade) : Nat → List Trade :=
  (closedTrades trades).foldl
    (fun f t => fun h => if h = hourOf (closeKey t) then f h ++ [t] else f h)
    (fun _ => [])

/-- A `_peak_hours` entry (time_analysis.py:251-257). -/
structure HourPerf where
  hour : Nat
  winRate : ℚ
  avgPnl : ℚ
  totalTrades : Nat
  totalPnl : ℚ
deriving DecidableEq

/-- The `(win_rate, avg_pnl)` ascending sort key used on hour entries. -/
def hpLE (a b : HourPerf) : Prop :=
  a.winRate < b.winRate ∨ (a.winRate = b.winRate ∧ a.avgPnl ≤ b.avgPnl)

instance : DecidableRel hpLE := fun a b =>
  inferInstanceAs (Decidable (a.winRate < b.winRate ∨
    (a.winRate = b.winRate ∧ a.avgPnl ≤ b.avgPnl)))

/-- The `_peak_hours` candidate for one hour: materialized only when the
bucket holds at least 3 trades (time_analysis.py:249-257). -/
def hourPerf (trades : List Trade) (h : Nat) : Option HourPerf :=
  let b := hourBuckets trades h
  if 3 ≤ b.length then
    some ⟨h,
      ((b.filter (fun t => 0 < t.profit)).length : ℚ) / (b.length : ℚ),
      ((b.map (·.profit)).sum) / (b.length : ℚ),
      b.length,
      (b.map (·.profit)).sum⟩
  else none

/-- `_peak_hours` after `_find_extremes` (time_analysis.py:248-260): hour
entries with ≥ 3 trades, sorted by `(win_rate, avg_pnl)` descending.
(Bucket-key enumeration order only affects ties of the subsequent sort;
iterating hours 0-23 in numeric order is observationally equivalent for
the verified claims.) -/
def peakHoursAll (trades : List Trade) : List HourPerf :=
  ((List.range 24).filterMap (hourPerf trades)).insertionSort (fun a b => hpLE b a)

/-- `_worst_hours` (time_analysis.py:263-266): peak-hour entries with
negative average pnl, sorted ascending by the same key. -/
def worstHoursAll (trades : List Trade) : List HourPerf :=
  ((peakHoursAll trades).filter (fun h => h.avgPnl < 0)).insertionSort hpLE

/-- The extremes attributes `_peak_hours` / `_worst_hours`.  `_analyze_all`
(time_analysis.py:89-102) returns early when there are no closed trades, so
`_find_extremes` never runs and the attributes are never assigned: `none`
models the resulting `AttributeError` on access. -/
def analyzeExtremes (trades : List Trade) : Option (List HourPerf × List HourPerf) :=
  if closedTrades trades = [] then none
  else some (peakHoursAll trades, worstHoursAll trades)

/-- `get_peak_hours` (time_analysis.py:387-389): reads `self._peak_hours`
unconditionally; `none` models the `AttributeError` raised when the
attribute was never set. -/
def getPeakHours (trades : List Trade) (limit : Nat) : Option (List HourPerf) :=
  (analyzeExtremes trades).map (fun e => e.1.take limit)

/-- `get_worst_hours` (time_analysis.py:391-393). -/
def getWorstHours (trades : List Trade) (limit : Nat) : Option (List HourPerf) :=
  (analyzeExtremes trades).map (fun e => e.2.take limit)

/-- The Python default `risk_free_rate=0.02` of `_calculate_sharpe_ratio`. -/
def riskFreeRate : ℚ := 0.02

/-- `[p - risk_free_rate/252 for p in profits]` (time_analysis.py:748). -/
def excessReturns (profits : List ℚ) (rf : ℚ) : List ℚ :=
  profits.map (fun p => p - rf / 252)

/-- `statistics.mean` (only ever applied to nonempty lists in the source). -/
def listMean (l : List ℚ) : ℚ := l.sum / (l.length : ℚ)

/-- The sample variance underlying `statistics.stdev` (denominator `n - 1`;
the source only calls it with `n ≥ 2`).  `stdev == 0` iff this is `0`. -/
def sampleVar (l : List ℚ) : ℚ :=
  ((l.map (fun x => (x - listMean l) ^ 2)).sum) / ((l.length : ℚ) - 1)

/-- The result of `_calculate_sharpe_ratio`: `plainZero` for the two
branches returning the literal `0.0` (fewer than 2 samples, or zero
standard deviation); `annualized m v` stands for the irrational value
`(m / sqrt v) * sqrt 252` with `v > 0`, which the claims never inspect. -/
inductive SharpeResult where
  | plainZero
  | annualized (mean variance : ℚ)
deriving DecidableEq

/-- `_calculate_sharpe_ratio` (time_analysis.py:743-756). -/
def calculateSharpeRatio (profits : List ℚ) (rf : ℚ) : SharpeResult :=
  if profits.length < 2 then .plainZero
  else
    let ex := excessReturns profits rf
    if sampleVar ex = 0 then .plainZero
    else .annualized (listMean ex) (sampleVar ex)

/-- `_calculate_profit_factor` (time_analysis.py:758-763): gross profits
over gross losses, `float('inf')` when there are no losses. -/
def calculateProfitFactor (profits : List ℚ) : PyFloat :=
  let gp := (profits.map (fun p => max p 0)).sum
  let gl := |(profits.map (fun p => min p 0)).sum|
  if 0 < gl then .val (gp / gl) else .inf

/-- One entry of `get_session_overlaps` (time_analysis.py:541-555). -/
structure OverlapEntry where
  sessionPair : String
  overlapStart : Nat
  overlapEnd : Nat
  totalTrades : Nat
  wins : Nat
  losses : Nat
  winRate : ℚ
  totalPnl : ℚ
  avgPnl : ℚ
  trades : List Trade
deriving DecidableEq

/-- `self.SESSIONS[name]` lookup. -/
def sessionWindow (name : String) : Option (Nat × Nat) :=
  (SESSIONS.find? (fun w => w.1 == name)).map (·.2)

/-- The body of the `get_session_overlaps` loop for one session pair
(time_analysis.py:509-555): `none` models every `continue`. -/
def overlapFor (trades : List Trade) (s1 s2 : String) : Option OverlapEntry :=
  match sessionWindow s1, sessionWindow s2 with
  | some w1, some w2 =>
      if w1.2 < w1.1 || w2.2 < w2.1 then none
      else
        let os := max w1.1 w2.1
        let oe := min w1.2 w2.2
        if oe ≤ os then none
        else
          let ts := (closedTrades trades).filter
            (fun t => timeInRange (timeOfDay (closeKey t)) os oe)
          if ts = [] then none
          else
            let pnl := (ts.map (·.profit)).sum
            let wins := (ts.filter (fun t => 0 < t.profit)).length
            some ⟨s1 ++ "-" ++ s2, os, oe, ts.length, wins,
              (ts.filter (fun t => t.profit < 0)).length,
              (wins : ℚ) / (ts.length : ℚ), pnl, pnl / (ts.length : ℚ), ts⟩
  | _, _ => none

/-- The `(total_trades, win_rate, avg_pnl)` ascending key on overlap
entries; the source sorts by it with `reverse=True`. -/
def overlapLE (a b : OverlapEntry) : Prop :=
  a.totalTrades < b.totalTrades ∨
    (a.totalTrades = b.totalTrades ∧
      (a.winRate < b.winRate ∨ (a.winRate = b.winRate ∧ a.avgPnl ≤ b.avgPnl)))

instance : DecidableRel overlapLE := fun a b =>
  inferInstanceAs (Decidable (a.totalTrades < b.totalTrades ∨
    (a.totalTrades = b.totalTrades ∧
      (a.winRate < b.winRate ∨ (a.winRate = b.winRate ∧ a.avgPnl ≤ b.avgPnl)))))

/-- `get_session_overlaps` (time_analysis.py:494-558): the fixed pair list
`[("London","New_York"), ("Asian","London")]`, each pair's entry when not
skipped, sorted descending by `(total_trades, win_rate, avg_pnl)`. -/
def getSessionOverlaps (trades : List Trade) : List OverlapEntry :=
  ([overlapFor trades "London" "New_York",
    overlapFor trades "Asian" "London"].reduceOption).insertionSort
    (fun a b => overlapLE b a)

/-! ## Concrete inputs used by the evaluations and witnesses -/

/-- A closed trade with ticket `i`, profit `p`, closing at time `100 * i`. -/
def mkClosed (i : Nat) (p : ℚ) : Trade := ⟨i, p, i * 100 - 50, some (i * 100)⟩

/-- The end-to-end drawdown scenario of the spec: in close-time order,
5 closed trades of +50, 3 of −40, 4 of +50, 5 of −60. -/
def ddScenario : List Trade :=
  (List.range 5).map (fun i => mkClosed (i + 1) 50) ++
  (List.range 3).map (fun i => mkClosed (i + 6) (-40)) ++
  (List.range 4).map (fun i => mkClosed (i + 9) 50) ++
  (List.range 5).map (fun i => mkClosed (i + 13) (-60))

/-- A collection with a single closed winning trade (win rate 1.0). -/
def singleWinner : List Trade := [⟨1, 100, 3600, some 7200⟩]

/-- A closed trade losing 10. -/
def tradeLossSmall : Trade := ⟨1, -10, 3600, some 7200⟩

/-- A closed trade losing 100. -/
def tradeLossBig : Trade := ⟨2, -100, 10000, some 14400⟩

/-- A portfolio holding two losing trades of distinct magnitudes. -/
def lossPortfolio : List Trade := [tradeLossSmall, tradeLossBig]

/-- A closed trade whose close time-of-day is exactly 23:59:00 (86340 s). -/
def trade2359 : Trade := ⟨9, 5, 86000, some 86340⟩

/-- A winning trade closing at 14:00:00 UTC (time-of-day 50400 s), inside
both the London and the New_York session windows. -/
def trade1400 : Trade := ⟨7, 10, 40000, some 50400⟩

/-- A one-trade collection built around `trade1400`. -/
def overlapDemo : List Trade := [trade1400]

/-! ## Claims C1-C6 -/

/-- C1: evaluation of the analyzers on the empty trade collection.
`BasicStats` and `DrawdownAnalyzer` do return zero snapshots (except that
the basic profit factor is the `inf` sentinel, not zero), but
`TimeAnalysis._analyze_all` returns early on an empty closed-trade list, so
`_peak_hours` / `_worst_hours` are never assigned and `get_peak_hours` /
`get_worst_hours` / `get_all_stats` raise `AttributeError` (modelled:
`none`) instead of returning an empty snapshot.  This contradicts the
claim that every analyzer returns an all-zero/empty snapshot with no
exception. -/
theorem empty_collection_snapshot_bug :
    getPeakHours [] 5 = none ∧ getWorstHours [] 5 = none ∧
    winRate [] = 0 ∧ calculateConsecutive [] = (0, 0) ∧
    basicProfitFactor [] = PyFloat.inf ∧
    getAnalysis [] 10000 = ⟨0, 0, [], false⟩ := by
  refine ⟨rfl, rfl, rfl, rfl, by with_unfolding_all rfl, rfl⟩

/-- C2: with a single winning closed trade the win rate is 1.0 and
`_calculate_win_rate_score` returns `90 + (1.0 − 0.6)·100 = 130`, outside
both the claimed overall range [0,100] and the claimed [90,100] band for
win rates ≥ 0.6; the profit-factor score is `float('inf')` on the same
input.  This contradicts the claim (and the code's own "0-100 scale"
comments and the repository test's `0 <= score <= 100` assertion). -/
theorem win_rate_score_exceeds_100 :
    winRate singleWinner = 1 ∧
    calculateWinRateScore (winRate singleWinner) = 130 ∧
    basicProfitFactor singleWinner = PyFloat.inf ∧
    calculateProfitFactorScore (basicProfitFactor singleWinner) = PyFloat.inf := by
  refine ⟨by with_unfolding_all rfl, by with_unfolding_all rfl,
    by with_unfolding_all rfl, by with_unfolding_all rfl⟩

/-- C3: `grade_individual_trade` computes `max_possible_loss` as the
MINIMUM losing magnitude (`min(abs(t.profit) ...)`), not the maximum the
claim (and the variable's own name) describe.  Consequently every losing
trade's profitability component is 0: on the portfolio {−10, −100} the −10
trade scores 0 where the claimed formula `max(0, 50 − (10/100)·50)` gives
45, and bigger losses do not score lower than smaller ones. -/
theorem losing_grade_uses_min_loss :
    maxPossibleLoss lossPortfolio = 10 ∧
    profitScore lossPortfolio tradeLossSmall = 0 ∧
    profitScore lossPortfolio tradeLossBig = 0 := by
  refine ⟨by with_unfolding_all rfl, by with_unfolding_all rfl,
    by with_unfolding_all rfl⟩

/-- C4 counterexample: on the profit sequence [5, 5] the sample variance of
the excess returns is 0, and `_calculate_sharpe_ratio` returns the plain
float `0.0` (the `plainZero` branch), not a distinguished "undefined"
value — contradicting the claim. -/
theorem sharpe_zero_variance_plain_zero :
    sampleVar (excessReturns [5, 5] riskFreeRate) = 0 ∧
    calculateSharpeRatio [5, 5] riskFreeRate = SharpeResult.plainZero := by
  refine ⟨by with_unfolding_all rfl, by with_unfolding_all rfl⟩

/-- C4 (amended): whenever the sample variance of the (excess) profit
sequence is zero — or there are fewer than two profits — the Sharpe-like
ratio is the plain float `0.0`; the profit-factor half of the claim holds:
whenever the gross loss is zero, both profit-factor computations return
the distinguished `float('inf')` no-losses sentinel. -/
theorem sharpe_and_profit_factor_zero_denominators :
    (∀ (profits : List ℚ) (rf : ℚ),
        sampleVar (excessReturns profits rf) = 0 →
        calculateSharpeRatio profits rf = SharpeResult.plainZero) ∧
    (∀ profits : List ℚ, |(profits.map (fun p => min p 0)).sum| = 0 →
        calculateProfitFactor profits = PyFloat.inf) ∧
    (∀ trades : List Trade, grossLoss trades = 0 →
        basicProfitFactor trades = PyFloat.inf) := by
  refine ⟨?_, ?_, ?_⟩
  · intro profits rf hv
    unfold calculateSharpeRatio
    split_ifs with h1
    · rfl
    · rw [if_pos hv]
  · intro profits hgl
    unfold calculateProfitFactor
    rw [if_neg]
    rw [hgl]
    exact lt_irrefl 0
  · intro trades hgl
    unfold basicProfitFactor
    rw [if_neg]
    intro hne
    exact hne hgl

/-- C4 witness: the amended theorem applied at concrete inputs — the
constant sequence [5, 5], the all-gain sequence [3], and the empty trade
collection. -/
theorem sharpe_and_profit_factor_zero_denominators_witness :
    calculateSharpeRatio [5, 5] riskFreeRate = SharpeResult.plainZero ∧
    calculateProfitFactor [3] = PyFloat.inf ∧
    basicProfitFactor [] = PyFloat.inf :=
  ⟨sharpe_and_profit_factor_zero_denominators.1 [5, 5] riskFreeRate
      (by with_unfolding_all rfl),
   sharpe_and_profit_factor_zero_denominators.2.1 [3]
      (by with_unfolding_all rfl),
   sharpe_and_profit_factor_zero_denominators.2.2 []
      (by with_unfolding_all rfl)⟩

set_option maxRecDepth 100000 in
/-- C5: on initial balance 10000 followed in close-time order by 5 trades
of +50, 3 of −40, 4 of +50 and 5 of −60, the analyzer returns exactly two
drawdown periods — depth 120 with a recovery date set, then depth 300 with
no recovery date — with current drawdown 300 and `is_in_drawdown` true. -/
theorem drawdown_scenario_two_periods :
    (getAnalysis ddScenario 10000).drawdownPeriods.map
        (fun p => (p.maxDepth, p.recoveryDate.isSome)) = [(120, true), (300, false)] ∧
    (getAnalysis ddScenario 10000).currentDrawdown = 300 ∧
    (getAnalysis ddScenario 10000).isInDrawdown = true := by
  refine ⟨by with_unfolding_all rfl, by with_unfolding_all rfl,
    by with_unfolding_all rfl⟩

/-- C6 counterexample: 23:59:00 (86340 s) is a valid time of day, yet it
lies in none of the five period windows — `_get_period` returns `None`
there (the evening window ends at `time(23, 59)`), so a trade closing at
23:59:00 is left without a period bucket, contradicting the claim that the
five windows cover every time of day. -/
theorem period_windows_gap_at_2359 :
    trade2359.isClosed = true ∧
    timeOfDay (closeKey trade2359) = 86340 ∧ (86340 : Nat) < 86400 ∧
    getPeriod (timeOfDay (closeKey trade2359)) = none ∧
    PERIODS.countP (inWindow 86340) = 0 := by
  refine ⟨rfl, rfl, by decide, rfl, rfl⟩

/-- C6 (amended): the five period windows are half-open and pairwise
disjoint (no time of day matches two of them), and every time of day
strictly before 23:59:00 falls in exactly one (so `_get_period` is `some`
there); times of day in [23:59:00, 24:00:00) fall in none and are dropped
from the period bucketing. -/
theorem period_windows_partition_before_2359 :
    (∀ (tod : Nat) (w1 w2 : String × Nat × Nat), w1 ∈ PERIODS → w2 ∈ PERIODS →
        inWindow tod w1 = true → inWindow tod w2 = true → w1 = w2) ∧
    (∀ tod : Nat, tod < 86340 → (getPeriod tod).isSome = true) ∧
    (∀ tod : Nat, 86340 ≤ tod → getPeriod tod = none) := by
  refine ⟨?_, ?_, ?_⟩
  · intro tod w1 w2 h1 h2
    fin_cases h1 <;> fin_cases h2 <;> simp [inWindow] <;> omega
  · intro tod h
    simp only [getPeriod, PERIODS, List.find?, inWindow]
    repeat' split
    all_goals simp_all
  · intro tod h
    simp only [getPeriod, PERIODS, List.find?, inWindow]
    repeat' split
    all_goals simp_all
    all_goals omega

/-- C6 witness: the amended theorem applied at the concrete times of day
50400 (14:00, inside exactly the midday window) and 86340 (23:59). -/
theorem period_windows_partition_before_2359_witness :
    (getPeriod 50400).isSome = true ∧ getPeriod 86340 = none ∧
    ("midday", 43200, 57600) = ("midday", 43200, 57600) :=
  ⟨period_windows_partition_before_2359.2.1 50400 (by decide),
   period_windows_partition_before_2359.2.2 86340 (by decide),
   period_windows_partition_before_2359.1 50400 ("midday", 43200, 57600)
     ("midday", 43200, 57600) (by decide) (by decide) (by decide) (by decide)⟩

/-! ## Claim C7: drawdown-period ordering invariants -/

/-- The claimed relation between an earlier and a later drawdown period:
start times are ordered, peaks are nondecreasing, and the earlier period
ends (recovers) no later than the later one starts — so the periods'
intervals do not overlap. -/
def periodChain (p q : DrawdownPeriod) : Prop :=
  p.startDate ≤ q.startDate ∧ p.peakEquity ≤ q.peakEquity ∧
    ∃ e, p.endDate = some e ∧ e ≤ q.startDate

/-- Invariant of the `_identify_drawdown_periods` loop state: an open
drawdown always started at the current peak's time, every emitted period
lies (in time and in peak equity) below the current peak, and the emitted
periods already satisfy the claimed pairwise relation. -/
def ddInv (st : DDState) : Prop :=
  (st.inDD = true → st.ddStart = some st.peakTime) ∧
  (∀ p ∈ st.periods,
      p.startDate ≤ st.peakTime ∧ p.peakEquity ≤ st.peakBalance ∧
      ∃ e, p.endDate = some e ∧ e ≤ st.peakTime) ∧
  List.Pairwise periodChain st.periods

lemma ddStep_inv (st : DDState) (pt : Time × ℚ) (hpt : st.peakTime ≤ pt.1)
    (h : ddInv st) : ddInv (ddStep st pt) ∧ (ddStep st pt).peakTime ≤ pt.1 := by
  obtain ⟨pb, pkt, ds, tr, idd, ps⟩ := st
  obtain ⟨h1, h2, h3⟩ := h
  simp only at hpt h1 h2 ⊢
  unfold ddStep
  by_cases hgt : pb < pt.2
  · rw [if_pos hgt]
    cases idd with
    | false =>
        refine ⟨⟨by simp, ?_, h3⟩, le_refl _⟩
        intro p hp
        obtain ⟨hs, hpk, e, he, hle⟩ := h2 p hp
        exact ⟨le_trans hs hpt, le_trans hpk (le_of_lt hgt), e, he, le_trans hle hpt⟩
    | true =>
        cases ds with
        | none =>
            refine ⟨⟨by simp at h1, ?_, h3⟩, le_refl _⟩
            intro p hp
            obtain ⟨hs, hpk, e, he, hle⟩ := h2 p hp
            exact ⟨le_trans hs hpt, le_trans hpk (le_of_lt hgt), e, he, le_trans hle hpt⟩
        | some s =>
            have hspk : s = pkt := by
              have := h1 rfl
              exact Option.some_injective _ this
            subst hspk
            refine ⟨⟨by simp, ?_, ?_⟩, le_refl _⟩
            · intro p hp
              rcases List.mem_append.mp hp with hp' | hp'
              · obtain ⟨hs, hpk, e, he, hle⟩ := h2 p hp'
                exact ⟨le_trans hs hpt, le_trans hpk (le_of_lt hgt), e, he,
                  le_trans hle hpt⟩
              · rcases List.mem_singleton.mp hp' with rfl
                exact ⟨hpt, le_of_lt hgt, pt.1, rfl, le_refl _⟩
            · rw [List.pairwise_append]
              refine ⟨h3, List.pairwise_singleton _ _, ?_⟩
              intro p hp q hq
              rcases List.mem_singleton.mp hq with rfl
              obtain ⟨hs, hpk, e, he, hle⟩ := h2 p hp
              exact ⟨hs, hpk, e, he, hle⟩
  · rw [if_neg hgt]
    by_cases hlt : pt.2 < pb
    · rw [if_pos hlt]
      cases idd with
      | false =>
          rw [if_pos rfl]
          exact ⟨⟨fun _ => rfl, h2, h3⟩, hpt⟩
      | true =>
          rw [if_neg (by simp)]
          split_ifs with htr
          · exact ⟨⟨h1, h2, h3⟩, hpt⟩
          · exact ⟨⟨h1, h2, h3⟩, hpt⟩
    · rw [if_neg hlt]
      exact ⟨⟨h1, h2, h3⟩, hpt⟩

lemma ddFold_inv : ∀ (pts : List (Time × ℚ)) (st : DDState),
    ddInv st → (∀ q ∈ pts, st.peakTime ≤ q.1) →
    List.Pairwise (fun a b : Time × ℚ => a.1 ≤ b.1) pts →
    ddInv (pts.foldl ddStep st) := by
  intro pts
  induction pts with
  | nil => intro st h _ _; exact h
  | cons pt pts ih =>
      intro st h hall hpw
      simp only [List.foldl_cons]
      obtain ⟨h', hle⟩ := ddStep_inv st pt (hall pt (List.mem_cons_self pt pts)) h
      refine ih _ h' ?_ (List.Pairwise.of_cons hpw)
      intro q hq
      exact le_trans hle ((List.pairwise_cons.mp hpw).1 q hq)

lemma finalize_pairwise (st : DDState) (lt : Time) (h : ddInv st) :
    List.Pairwise periodChain (finalizePeriods st lt) := by
  obtain ⟨pb, pkt, ds, tr, idd, ps⟩ := st
  obtain ⟨h1, h2, h3⟩ := h
  unfold finalizePeriods
  cases idd with
  | false => exact h3
  | true =>
      cases ds with
      | none => exact h3
      | some s =>
          have hspk : s = pkt := Option.some_injective _ (h1 rfl)
          subst hspk
          rw [List.pairwise_append]
          refine ⟨h3, List.pairwise_singleton _ _, ?_⟩
          intro p hp q hq
          rcases List.mem_singleton.mp hq with rfl
          obtain ⟨hs, hpk, e, he, hle⟩ := h2 p hp
          exact ⟨hs, hpk, e, he, hle⟩

lemma curvePoints_map_fst (l : List Trade) (bal : ℚ) :
    (curvePoints l bal).map Prod.fst = l.map closeKey := by
  induction l generalizing bal with
  | nil => rfl
  | cons t ts ih => simp [curvePoints, ih]

lemma curve_times_pairwise (trades : List Trade) (init : ℚ) :
    List.Pairwise (fun a b : Time × ℚ => a.1 ≤ b.1) (equityCurve trades init) := by
  unfold equityCurve
  cases hs : sortByCloseTime (closedTrades trades) with
  | nil => exact List.Pairwise.nil
  | cons t ts =>
      have hsorted : List.Sorted closeLE (t :: ts) := by
        rw [← hs]; exact List.sorted_insertionSort closeLE _
      have hkeys : List.Pairwise (fun a b : Nat => a ≤ b) ((t :: ts).map closeKey) :=
        List.pairwise_map.mpr hsorted
      rw [List.pairwise_cons]
      constructor
      · intro q hq
        have hq1 : q.1 ∈ (t :: ts).map closeKey := by
          rw [← curvePoints_map_fst (t :: ts) init]
          exact List.mem_map_of_mem Prod.fst hq
        rcases List.mem_cons.mp hq1 with he | hm
        · rw [← he]; exact Nat.sub_le _ _
        · exact le_trans (Nat.sub_le _ _) ((List.pairwise_cons.mp hkeys).1 q.1 hm)
      · rw [← curvePoints_map_fst (t :: ts) init] at hkeys
        exact List.pairwise_map.mp hkeys

/-- C7: for every trade collection and initial balance, the drawdown
periods produced by `_identify_drawdown_periods` are pairwise ordered by
start time, have nondecreasing peak equities, and every earlier period
ends (with a recovery) no later than any later period starts — the
periods' time intervals do not overlap. -/
theorem drawdown_periods_ordered (trades : List Trade) (init : ℚ) :
    List.Pairwise periodChain (identifyDrawdownPeriods trades init) := by
  unfold identifyDrawdownPeriods
  cases hc : equityCurve trades init with
  | nil => exact List.Pairwise.nil
  | cons c cs =>
      have hpw := curve_times_pairwise trades init
      rw [hc] at hpw
      apply finalize_pairwise
      apply ddFold_inv
      · refine ⟨by simp, ?_, List.Pairwise.nil⟩
        intro p hp
        exact absurd hp (List.not_mem_nil p)
      · intro q hq
        rcases List.mem_cons.mp hq with rfl | hq'
        · exact le_refl _
        · exact (List.pairwise_cons.mp hpw).1 q hq'
      · exact hpw

/-! ## Claim C8: the consecutive-streak walk -/

lemma streakStep_maxWins (s : StreakState) (t : Trade) :
    (streakStep s t).maxWins = max s.maxWins (streakStep s t).curWins := by
  unfold streakStep
  split_ifs <;> simp

lemma streakStep_maxLosses (s : StreakState) (t : Trade) :
    (streakStep s t).maxLosses = max s.maxLosses (streakStep s t).curLosses := by
  unfold streakStep
  split_ifs <;> simp

lemma foldl_streak_maxWins (l : List Trade) : ∀ s : StreakState,
    (l.foldl streakStep s).maxWins =
      ((walkStates s l).map (·.curWins)).foldl max s.maxWins := by
  induction l with
  | nil => intro s; rfl
  | cons t ts ih =>
      intro s
      simp only [List.foldl_cons, walkStates, List.map_cons]
      rw [ih, streakStep_maxWins]

lemma foldl_streak_maxLosses (l : List Trade) : ∀ s : StreakState,
    (l.foldl streakStep s).maxLosses =
      ((walkStates s l).map (·.curLosses)).foldl max s.maxLosses := by
  induction l with
  | nil => intro s; rfl
  | cons t ts ih =>
      intro s
      simp only [List.foldl_cons, walkStates, List.map_cons]
      rw [ih, streakStep_maxLosses]

/-- C8: in the consecutive-streak walk of `_calculate_consecutive` over the
closed trades sorted ascending by close time: a breakeven trade resets both
running counters to 0 (and updates neither maximum), a winning trade
increments the win streak and resets the loss streak, a losing trade does
the opposite, and the reported `max_consecutive_wins` / `_losses` are the
maxima of the running counters over the walk. -/
theorem consecutive_streak_walk :
    (∀ (s : StreakState) (t : Trade), t.profit = 0 →
        streakStep s t = ⟨0, 0, s.maxWins, s.maxLosses⟩) ∧
    (∀ (s : StreakState) (t : Trade), 0 < t.profit →
        streakStep s t = ⟨s.curWins + 1, 0, max s.maxWins (s.curWins + 1), s.maxLosses⟩) ∧
    (∀ (s : StreakState) (t : Trade), t.profit < 0 →
        streakStep s t = ⟨0, s.curLosses + 1, s.maxWins, max s.maxLosses (s.curLosses + 1)⟩) ∧
    (∀ trades : List Trade,
        calculateConsecutive trades =
          ((streakWalk (sortByCloseTime (closedTrades trades))).maxWins,
           (streakWalk (sortByCloseTime (closedTrades trades))).maxLosses) ∧
        List.Sorted closeLE (sortByCloseTime (closedTrades trades))) ∧
    (∀ l : List Trade,
        (streakWalk l).maxWins =
          ((walkStates ⟨0, 0, 0, 0⟩ l).map (·.curWins)).foldl max 0 ∧
        (streakWalk l).maxLosses =
          ((walkStates ⟨0, 0, 0, 0⟩ l).map (·.curLosses)).foldl max 0) := by
  refine ⟨?_, ?_, ?_, ?_, ?_⟩
  · intro s t h
    unfold streakStep
    rw [if_neg (by rw [h]; exact lt_irrefl 0), if_neg (by rw [h]; exact lt_irrefl 0)]
  · intro s t h
    unfold streakStep
    rw [if_pos h]
  · intro s t h
    unfold streakStep
    rw [if_neg (not_lt_of_gt h), if_pos h]
  · intro trades
    constructor
    · unfold calculateConsecutive
      split_ifs with hc
      · rw [hc]; rfl
      · rfl
    · exact List.sorted_insertionSort closeLE (closedTrades trades)
  · intro l
    exact ⟨foldl_streak_maxWins l ⟨0, 0, 0, 0⟩, foldl_streak_maxLosses l ⟨0, 0, 0, 0⟩⟩

/-- C8 witness: the step characterization applied at concrete states and
trades — a breakeven, a winning and a losing trade — plus the walk of the
whole W,W,BE,L,L,L,W scenario, and the maximum-of-running-counters law on
it. -/
theorem consecutive_streak_walk_witness :
    streakStep ⟨2, 0, 5, 1⟩ ⟨3, 0, 100, some 200⟩ = ⟨0, 0, 5, 1⟩ ∧
    streakStep ⟨2, 0, 5, 1⟩ ⟨4, 7, 100, some 200⟩ = ⟨2 + 1, 0, max 5 (2 + 1), 1⟩ ∧
    streakStep ⟨2, 3, 5, 1⟩ ⟨5, -7, 100, some 200⟩ = ⟨0, 3 + 1, 5, max 1 (3 + 1)⟩ ∧
    calculateConsecutive
        [mkClosed 1 10, mkClosed 2 5, mkClosed 3 0, mkClosed 4 (-1),
         mkClosed 5 (-2), mkClosed 6 (-3), mkClosed 7 4] = (2, 3) := by
  refine ⟨consecutive_streak_walk.1 ⟨2, 0, 5, 1⟩ ⟨3, 0, 100, some 200⟩ rfl,
    consecutive_streak_walk.2.1 ⟨2, 0, 5, 1⟩ ⟨4, 7, 100, some 200⟩ (by norm_num),
    consecutive_streak_walk.2.2.1 ⟨2, 3, 5, 1⟩ ⟨5, -7, 100, some 200⟩ (by norm_num),
    by with_unfolding_all rfl⟩

/-! ## Claims C9, C10: session membership and session overlaps -/

lemma mem_foldl_bucketAdd (t : Trade) (s : String) :
    ∀ (l : List Trade) (f : String → List Trade),
      (t ∈ f s ∨ (t ∈ l ∧ s ∈ getSessions (timeOfDay (closeKey t)))) →
      t ∈ (l.foldl (fun g u => bucketAdd g (getSessions (timeOfDay (closeKey u))) u) f) s := by
  intro l
  induction l with
  | nil =>
      intro f h
      rcases h with h | ⟨h, _⟩
      · exact h
      · exact absurd h (List.not_mem_nil t)
  | cons u us ih =>
      intro f h
      simp only [List.foldl_cons]
      apply ih
      rcases h with h | ⟨hm, hs⟩
      · left
        unfold bucketAdd
        split_ifs
        · exact List.mem_append_left _ h
        · exact h
      · rcases List.mem_cons.mp hm with rfl | hm'
        · left
          unfold bucketAdd
          rw [if_pos hs]
          exact List.mem_append_right _ (List.mem_singleton.mpr rfl)
        · right
          exact ⟨hm', hs⟩

lemma mem_sessionBuckets (trades : List Trade) (t : Trade) (s : String)
    (hmem : t ∈ closedTrades trades)
    (hs : s ∈ getSessions (timeOfDay (closeKey t))) :
    t ∈ sessionBuckets trades s :=
  mem_foldl_bucketAdd t s (closedTrades trades) (fun _ => []) (Or.inr ⟨hmem, hs⟩)

lemma london_ny_mem_getSessions (tod : Nat) (h1 : 46800 ≤ tod) (h2 : tod < 57600) :
    "London" ∈ getSessions tod ∧ "New_York" ∈ getSessions tod := by
  constructor
  · refine List.mem_map.mpr ⟨("London", 28800, 57600),
      List.mem_filter.mpr ⟨by simp [SESSIONS], ?_⟩, rfl⟩
    simp [timeInRange]
    omega
  · refine List.mem_map.mpr ⟨("New_York", 46800, 75600),
      List.mem_filter.mpr ⟨by simp [SESSIONS], ?_⟩, rfl⟩
    simp [timeInRange]
    omega

/-- The Asian/London pair is always skipped: the intersection of
[00:00, 08:00) and [08:00, 16:00) is empty (`overlap_start >= overlap_end`
triggers the `continue`), independent of the trades. -/
lemma overlapFor_asian_london (trades : List Trade) :
    overlapFor trades "Asian" "London" = none := rfl

lemma overlapFor_LNY (trades : List Trade)
    (h : (closedTrades trades).filter
        (fun t => timeInRange (timeOfDay (closeKey t)) 46800 57600) ≠ []) :
    ∃ e, overlapFor trades "London" "New_York" = some e ∧
      e.sessionPair = "London-New_York" ∧
      e.trades = (closedTrades trades).filter
        (fun t => timeInRange (timeOfDay (closeKey t)) 46800 57600) := by
  unfold overlapFor
  have hL : sessionWindow "London" = some (28800, 57600) := rfl
  have hN : sessionWindow "New_York" = some (46800, 75600) := rfl
  rw [hL, hN]
  dsimp only
  rw [if_neg (by decide), if_neg (by decide)]
  rw [show (28800 : Nat) ⊔ 46800 = 46800 from rfl,
      show (57600 : Nat) ⊓ 75600 = 57600 from rfl]
  rw [if_neg h]
  exact ⟨_, rfl, rfl, rfl⟩

lemma overlapFor_LNY_none (trades : List Trade)
    (h : (closedTrades trades).filter
        (fun t => timeInRange (timeOfDay (closeKey t)) 46800 57600) = []) :
    overlapFor trades "London" "New_York" = none := by
  unfold overlapFor
  have hL : sessionWindow "London" = some (28800, 57600) := rfl
  have hN : sessionWindow "New_York" = some (46800, 75600) := rfl
  rw [hL, hN]
  dsimp only
  rw [if_neg (by decide), if_neg (by decide)]
  rw [show (28800 : Nat) ⊔ 46800 = 46800 from rfl,
      show (57600 : Nat) ⊓ 75600 = 57600 from rfl]
  rw [if_pos h]

lemma overlapFor_LNY_sessionPair (trades : List Trade) (e : OverlapEntry)
    (h : overlapFor trades "London" "New_York" = some e) :
    e.sessionPair = "London-New_York" := by
  by_cases hf : (closedTrades trades).filter
      (fun t => timeInRange (timeOfDay (closeKey t)) 46800 57600) = []
  · rw [overlapFor_LNY_none trades hf] at h
    exact absurd h (by simp)
  · obtain ⟨e0, he0, hsp, _⟩ := overlapFor_LNY trades hf
    rw [he0] at h
    rw [← Option.some_injective _ h]
    exact hsp

/-- C9: every closed trade whose close time-of-day lies inside both the
London window [08:00, 16:00) and the New_York window [13:00, 21:00) —
equivalently, inside their intersection [13:00, 16:00) — is counted in
both parent session buckets and appears in the London/New_York overlap
entry of `get_session_overlaps`, whose membership test is the half-open
interval test on the windows' intersection. -/
theorem overlap_trade_counted_in_parents_and_overlap
    (trades : List Trade) (t : Trade) (ct : Time)
    (hmem : t ∈ trades) (hct : t.closeTime = some ct)
    (h1 : 46800 ≤ ct % 86400) (h2 : ct % 86400 < 57600) :
    t ∈ sessionBuckets trades "London" ∧ t ∈ sessionBuckets trades "New_York" ∧
    ∃ e ∈ getSessionOverlaps trades,
      e.sessionPair = "London-New_York" ∧ t ∈ e.trades := by
  have hclosed : t ∈ closedTrades trades := by
    refine List.mem_filter.mpr ⟨hmem, ?_⟩
    simp [Trade.isClosed, hct]
  have htod : timeOfDay (closeKey t) = ct % 86400 := by
    simp [timeOfDay, closeKey, hct]
  have hsess := london_ny_mem_getSessions (timeOfDay (closeKey t))
    (htod ▸ h1) (htod ▸ h2)
  have hrange : timeInRange (timeOfDay (closeKey t)) 46800 57600 = true := by
    rw [htod]
    simp [timeInRange]
    exact ⟨h1, h2⟩
  have hfmem : t ∈ (closedTrades trades).filter
      (fun u => timeInRange (timeOfDay (closeKey u)) 46800 57600) :=
    List.mem_filter.mpr ⟨hclosed, hrange⟩
  have hne : (closedTrades trades).filter
      (fun u => timeInRange (timeOfDay (closeKey u)) 46800 57600) ≠ [] := by
    intro hnil
    rw [hnil] at hfmem
    exact List.not_mem_nil t hfmem
  obtain ⟨e, he, hsp, htr⟩ := overlapFor_LNY trades hne
  refine ⟨mem_sessionBuckets trades t "London" hclosed hsess.1,
    mem_sessionBuckets trades t "New_York" hclosed hsess.2, e, ?_, hsp, ?_⟩
  · unfold getSessionOverlaps
    rw [List.mem_insertionSort, overlapFor_asian_london, he]
    simp [List.reduceOption]
  · rw [htr]
    exact hfmem

/-- C9 witness: the theorem applied to the concrete one-trade collection
around `trade1400`, a winning trade closing at 14:00:00 UTC. -/
theorem overlap_trade_counted_witness :
    trade1400 ∈ sessionBuckets overlapDemo "London" ∧
    trade1400 ∈ sessionBuckets overlapDemo "New_York" ∧
    ∃ e ∈ getSessionOverlaps overlapDemo,
      e.sessionPair = "London-New_York" ∧ trade1400 ∈ e.trades :=
  overlap_trade_counted_in_parents_and_overlap overlapDemo trade1400 50400
    (List.mem_singleton.mpr rfl) rfl (by decide) (by decide)

/-- C10 (implicit): `get_session_overlaps` never reports an Asian-London
entry — their half-open windows share only the boundary 08:00, so the
pair's intersection is empty and it is always skipped; every reported
entry is the London-New_York one. -/
theorem session_overlaps_only_london_ny (trades : List Trade) :
    (getSessionOverlaps trades).all
      (fun e => e.sessionPair == "London-New_York") = true := by
  rw [List.all_eq_true]
  intro e he
  unfold getSessionOverlaps at he
  rw [List.mem_insertionSort, overlapFor_asian_london] at he
  cases hLN : overlapFor trades "London" "New_York" with
  | none =>
      rw [hLN] at he
      simp [List.reduceOption] at he
  | some e0 =>
      rw [hLN] at he
      simp only [List.reduceOption, List.filterMap_cons, id, List.filterMap_nil,
        List.mem_singleton] at he
      rw [he]
      exact beq_iff_eq.mpr (overlapFor_LNY_sessionPair trades e0 hLN)

end TradeJournal
